import Mathlib

/-!
Verification development for the HAI3 repository.

Part A embeds the API plugin execution chain (`apiRegistry` /
`BaseApiService`).  The implementation files
(`packages/api/src/apiRegistry.ts`, `packages/api/src/BaseApiService.ts`)
are not part of the source snapshot: only the openspec documents
(`openspec/changes/add-global-api-plugins/design.md`, `tasks.md`, and the
requirements delta) describe them, so the definitions in Part A are
modelled from those documents.

Part B embeds the template sync utilities (`syncTemplates`,
`syncDirectory`, `SYNC_EXCLUDE`) from the CLI source file
`src/unnamed/part_000`, which is present in the snapshot.
-/

namespace HAI3

/-- Modelled from the spec (design.md, Type Definitions): `ApiRequestContext`
holds pure request data: method, url, headers, optional body. -/
structure ApiRequestContext where
  method : String
  url : String
  headers : List (String × String)
  body : Option String
deriving Repr, DecidableEq

/-- Modelled from the spec (design.md, Type Definitions): `ApiResponseContext`
holds status, headers and data of a response. -/
structure ApiResponseContext where
  status : Nat
  headers : List (String × String)
  data : String
deriving Repr, DecidableEq

/-- Modelled from the spec (design.md, Type Definitions):
`ShortCircuitResponse` wraps a response in a `shortCircuit` property. -/
structure ShortCircuitResponse where
  shortCircuit : ApiResponseContext
deriving Repr, DecidableEq

/-- Errors raised during request execution, modelled by their message. -/
structure ApiError where
  message : String
deriving Repr, DecidableEq

/-- Result of an `onRequest` hook: either a (possibly modified) request
context for the normal flow, or a short-circuit response. -/
inductive OnRequestResult where
  | ctx (c : ApiRequestContext)
  | sc (s : ShortCircuitResponse)
deriving Repr, DecidableEq

/-- The TypeScript domain of `isShortCircuit`:
`ApiRequestContext | ShortCircuitResponse | undefined`. -/
inductive OnRequestValue where
  | undef
  | ctx (c : ApiRequestContext)
  | sc (s : ShortCircuitResponse)
deriving Repr, DecidableEq

/-- Whether the value has an own `shortCircuit` property.  An
`ApiRequestContext` has only `method`, `url`, `headers`, `body`; a
`ShortCircuitResponse` has exactly the `shortCircuit` property. -/
def hasShortCircuitProp : OnRequestValue → Bool
  | .undef => false
  | .ctx _ => false
  | .sc _ => true

/-- Modelled from the spec (design.md, Type Guard):
`isShortCircuit(result)` is `result !== undefined && 'shortCircuit' in result`. -/
def isShortCircuit (result : OnRequestValue) : Bool :=
  (match result with
    | .undef => false
    | _ => true)
  && hasShortCircuitProp result

/-- Modelled from the spec (design.md, Plugin Base Class): a plugin instance.
Class identity is modelled by `classChain`: the plugin's own class id
followed by the ids of its ancestor classes, so that `instanceof` is
membership in the chain.  The optional lifecycle hooks are pure functions. -/
structure ApiPlugin where
  classChain : List Nat
  onRequest : Option (ApiRequestContext → OnRequestResult)
  onResponse : Option (ApiResponseContext → ApiRequestContext → ApiResponseContext)
  onError : Option (ApiError → ApiRequestContext → Sum ApiError ApiResponseContext)

/-- The plugin's own class id (head of its class chain). -/
def pluginClass (p : ApiPlugin) : Nat := p.classChain.headD 0

/-- Whether `p instanceof c`: the class id occurs in the plugin's class chain. -/
def isInstanceOf (p : ApiPlugin) (c : Nat) : Bool := p.classChain.contains c

/-- Modelled from the spec (tasks.md Task 8): per-service plugin state of
`BaseApiService`: service plugins (FIFO) and excluded global plugin classes. -/
structure ServiceState where
  servicePlugins : List ApiPlugin
  excluded : List Nat

/-- Modelled from the spec (design.md, System Boundaries): the registry
holds the global plugins and the registered services by name. -/
structure RegistryState where
  globalPlugins : List ApiPlugin
  services : List (String × ServiceState)

/-- Modelled from the spec (tasks.md Task 9, `getPluginsInOrder`): global
plugins (filtered by the service's exclusions via `instanceof`) followed by
the service plugins, both in FIFO registration order. -/
def getPluginsInOrder (reg : RegistryState) (svc : ServiceState) : List ApiPlugin :=
  reg.globalPlugins.filter
      (fun p => !(svc.excluded.any (fun c => isInstanceOf p c)))
    ++ svc.servicePlugins

/-- Modelled from the spec (tasks.md Task 9, `getPluginsReversed`): reversed
execution order, for the response phase. -/
def getPluginsReversed (reg : RegistryState) (svc : ServiceState) : List ApiPlugin :=
  (getPluginsInOrder reg svc).reverse

/-- Outcome of the request phase: proceed to HTTP with a context, or use a
short-circuited response. -/
inductive ReqOutcome where
  | proceed (c : ApiRequestContext)
  | shortCircuited (r : ApiResponseContext)
deriving Repr, DecidableEq

/-- Modelled from the spec (design.md, Data Flow steps 3a-3b): the request
phase walks the chain in order; for each plugin with `onRequest` it calls
the hook on the current context; a `shortCircuit` return stops the chain,
otherwise the returned context feeds the next plugin.  The first component
records each hook invocation as (plugin class, context it received). -/
def runRequestPhase : List ApiPlugin → ApiRequestContext →
    List (Nat × ApiRequestContext) × ReqOutcome
  | [], ctx => ([], .proceed ctx)
  | p :: rest, ctx =>
    match p.onRequest with
    | none => runRequestPhase rest ctx
    | some f =>
      match f ctx with
      | .ctx c => ((pluginClass p, ctx) :: (runRequestPhase rest c).1, (runRequestPhase rest c).2)
      | .sc s => ([(pluginClass p, ctx)], .shortCircuited s.shortCircuit)

/-- Modelled from the spec (design.md, Data Flow step 5): response hooks are
run over an already reversed plugin list; each plugin with `onResponse`
receives the current response and the original request, and its return
value feeds the next hook.  The first component records each invocation as
(plugin class, response it received, request it received). -/
def runResponseHooks : List ApiPlugin → ApiRequestContext → ApiResponseContext →
    List (Nat × ApiResponseContext × ApiRequestContext) × ApiResponseContext
  | [], _, r => ([], r)
  | p :: rest, ctx, r =>
    match p.onResponse with
    | none => runResponseHooks rest ctx r
    | some f =>
      ((pluginClass p, r, ctx) :: (runResponseHooks rest ctx (f r ctx)).1,
        (runResponseHooks rest ctx (f r ctx)).2)

/-- Modelled from the spec (design.md, Data Flow step 5): the response phase
runs the chain in reverse order (last plugin first). -/
def runResponsePhase (plugins : List ApiPlugin) (ctx : ApiRequestContext)
    (r : ApiResponseContext) :
    List (Nat × ApiResponseContext × ApiRequestContext) × ApiResponseContext :=
  runResponseHooks plugins.reverse ctx r

/-- Modelled from the spec (design.md, Error Flow): each plugin with
`onError` is called with the current error and the original request; a
returned response recovers and stops the error chain, a returned error is
passed to the next handler, and if no handler recovers the final error is
the result.  The first component records each invocation as
(plugin class, error it received, request it received). -/
def runErrorPhase : List ApiPlugin → ApiError → ApiRequestContext →
    List (Nat × ApiError × ApiRequestContext) × Except ApiError ApiResponseContext
  | [], e, _ => ([], .error e)
  | p :: rest, e, ctx =>
    match p.onError with
    | none => runErrorPhase rest e ctx
    | some f =>
      match f e ctx with
      | .inl e2 =>
        ((pluginClass p, e, ctx) :: (runErrorPhase rest e2 ctx).1,
          (runErrorPhase rest e2 ctx).2)
      | .inr r => ([(pluginClass p, e, ctx)], .ok r)

/-- Result of executing a request: whether the HTTP transport was invoked,
and the value produced for the caller. -/
structure ExecResult where
  httpCalled : Bool
  result : Except ApiError ApiResponseContext

/-- Modelled from the spec (design.md Data Flow, tasks.md Task 10): execute
a request against a plugin chain.  The request phase runs first; on a
short-circuit the HTTP transport is skipped and the short-circuited
response enters the response phase exactly as a received response would;
otherwise the transport runs on the final context, a successful response
enters the response phase, and a transport error enters the error phase
(reverse order). -/
def executeRequest (plugins : List ApiPlugin)
    (http : ApiRequestContext → Except ApiError ApiResponseContext)
    (ctx : ApiRequestContext) : ExecResult :=
  match (runRequestPhase plugins ctx).2 with
  | .shortCircuited r => ⟨false, .ok (runResponsePhase plugins ctx r).2⟩
  | .proceed c =>
    match http c with
    | .ok r => ⟨true, .ok (runResponsePhase plugins ctx r).2⟩
    | .error e => ⟨true, (runErrorPhase plugins.reverse e ctx).2⟩

/-- Modelled from the spec (design.md): `BaseApiService` executes a request
through the merged plugin chain of its registry and its own state. -/
def serviceExecute (reg : RegistryState) (svc : ServiceState)
    (http : ApiRequestContext → Except ApiError ApiResponseContext)
    (ctx : ApiRequestContext) : ExecResult :=
  executeRequest (getPluginsInOrder reg svc) http ctx

/-- Look up a service by name in the registry. -/
def svcLookup (reg : RegistryState) (name : String) : Option ServiceState :=
  (reg.services.find? (fun e => e.1 == name)).map (fun e => e.2)

/-- Modelled from the spec (tasks.md Task 8, `plugins.exclude`): add the
given plugin classes to the named service's exclusion list; no other
service and no global plugin is touched. -/
def excludeOnService (reg : RegistryState) (name : String)
    (classes : List Nat) : RegistryState :=
  { reg with
    services := reg.services.map (fun e =>
      if e.1 == name then (e.1, { e.2 with excluded := e.2.excluded ++ classes })
      else e) }

/-- Whether a plugin of the given class is already registered globally
(checked via `instanceof`, design.md Risk 2). -/
def hasPluginClass (plugins : List ApiPlugin) (c : Nat) : Bool :=
  plugins.any (fun p => isInstanceOf p c)

/-- Insert a plugin immediately before the first plugin that is an instance
of the target class. -/
def insertBefore (plugins : List ApiPlugin) (p : ApiPlugin) (target : Nat) :
    List ApiPlugin :=
  match plugins with
  | [] => [p]
  | q :: rest =>
    if isInstanceOf q target then p :: q :: rest
    else q :: insertBefore rest p target

/-- Insert a plugin immediately after the first plugin that is an instance
of the target class. -/
def insertAfter (plugins : List ApiPlugin) (p : ApiPlugin) (target : Nat) :
    List ApiPlugin :=
  match plugins with
  | [] => [p]
  | q :: rest =>
    if isInstanceOf q target then q :: p :: rest
    else q :: insertAfter rest p target

/-- Modelled from the spec (tasks.md Task 6, `plugins.addBefore`): find the
target plugin by class via `instanceof`; throw if the target class is not
registered; throw on a duplicate of the new plugin's class; otherwise
insert the plugin immediately before the target.  The global order is kept
as a flat list resolved at registration time, so no positioning can create
a circular dependency. -/
def addBefore (reg : RegistryState) (p : ApiPlugin) (target : Nat) :
    Except String RegistryState :=
  if !hasPluginClass reg.globalPlugins target then
    .error "Plugin class not registered"
  else if hasPluginClass reg.globalPlugins (pluginClass p) then
    .error "Plugin class already registered"
  else
    .ok { reg with globalPlugins := insertBefore reg.globalPlugins p target }

/-- Modelled from the spec (tasks.md Task 6, `plugins.addAfter`): same as
`addBefore` but the plugin is inserted immediately after the target. -/
def addAfter (reg : RegistryState) (p : ApiPlugin) (target : Nat) :
    Except String RegistryState :=
  if !hasPluginClass reg.globalPlugins target then
    .error "Plugin class not registered"
  else if hasPluginClass reg.globalPlugins (pluginClass p) then
    .error "Plugin class already registered"
  else
    .ok { reg with globalPlugins := insertAfter reg.globalPlugins p target }

/-! ## Part B: template sync utilities (embedded from `src/unnamed/part_000`) -/

/-- A node of the file system: a file with content, or a directory with
named children. -/
inductive FsNode where
  | file (content : String)
  | dir (children : List (String × FsNode))
deriving Repr

/-- Children of a node (`fs.readdir`); only ever applied to directories. -/
def childrenOf : FsNode → List (String × FsNode)
  | .file _ => []
  | .dir cs => cs

/-- Look up a directory entry by name. -/
def lookupEntry (cs : List (String × FsNode)) (n : String) : Option FsNode :=
  (cs.find? (fun e => e.1 == n)).map (fun e => e.2)

/-- Effect of `fs.remove(dest/n)` followed by `fs.copy(src, dest/n)`: drop
any entry named `n` and add the new one. -/
def setEntry (cs : List (String × FsNode)) (n : String) (v : FsNode) :
    List (String × FsNode) :=
  cs.filter (fun e => e.1 != n) ++ [(n, v)]

/-- Children of the destination after `fs.ensureDir`: the existing children
when the destination is a directory, an empty directory otherwise. -/
def destChildren : Option FsNode → List (String × FsNode)
  | some (.dir cs) => cs
  | _ => []

/-- Constant `SYNC_EXCLUDE` from the source: items excluded from template sync. -/
def SYNC_EXCLUDE : List String := ["manifest.json", "screenset-template", "layout"]

/-- The remove-and-copy loop of the `src/screensets` and themes branches of
`syncDirectory`: each template entry replaces the destination entry of the
same name; destination entries with other names are not touched. -/
def replaceTemplateEntries (srcCs destCs : List (String × FsNode)) :
    List (String × FsNode) :=
  srcCs.foldl (fun acc e => setEntry acc e.1 e.2) destCs

mutual

/-- Function `syncDirectory(srcDir, destDir, relativePath)` from the source, with the
source directory given by its children.  Branches in source order:
`src/screensets` and the themes paths replace only template-named entries;
the layout paths are skipped entirely; `src` and `src/app` recurse entry by
entry; every other directory is fully replaced. -/
def syncDirectory (srcCs : List (String × FsNode)) (dest : Option FsNode)
    (rel : String) : Option FsNode :=
  if rel == "src/screensets" || rel == "src\\screensets" then
    some (.dir (replaceTemplateEntries srcCs (destChildren dest)))
  else if rel == "src/app/themes" || rel == "src\\app\\themes"
      || rel == "src/themes" || rel == "src\\themes" then
    some (.dir (replaceTemplateEntries srcCs (destChildren dest)))
  else if rel == "src/app/layout" || rel == "src\\app\\layout"
      || rel == "src/layout" || rel == "src\\layout" then
    dest
  else if rel == "src" || rel == "src/app" || rel == "src\\app" then
    some (.dir (syncEntries srcCs (destChildren dest) rel))
  else
    some (.dir srcCs)
termination_by (sizeOf srcCs, 1)

/-- The entry loop of the `src` / `src/app` branch of `syncDirectory`:
directories recurse with the joined relative path, files are replaced. -/
def syncEntries (srcCs destCs : List (String × FsNode)) (rel : String) :
    List (String × FsNode) :=
  match srcCs with
  | [] => destCs
  | (n, node) :: rest =>
    match node with
    | .dir cs =>
      let r := syncDirectory cs (lookupEntry destCs n) (rel ++ "/" ++ n)
      syncEntries rest
        (match r with
          | some v => setEntry destCs n v
          | none => destCs) rel
    | .file c => syncEntries rest (setEntry destCs n (.file c)) rel
termination_by (sizeOf srcCs, 0)

end

/-- Outcome of `syncTemplates`: the project tree, the synced entry names,
and the warnings logged for entries whose sync raised an error. -/
structure SyncOutcome where
  project : List (String × FsNode)
  synced : List String
  warnings : List String
deriving Repr

/-- The per-entry loop of `syncTemplates`: skip `SYNC_EXCLUDE` names; sync
each other entry (directory via `syncDirectory`, file via overwrite copy)
and record its name; an entry whose sync raises (per the oracle `failsOn`)
is caught, a warning is logged, its name is not recorded, and the loop
continues. -/
def syncTemplatesGo : List (String × FsNode) → List (String × FsNode) →
    (String → Bool) → SyncOutcome
  | [], proj, _ => ⟨proj, [], []⟩
  | (n, node) :: rest, proj, failsOn =>
    if SYNC_EXCLUDE.contains n then
      syncTemplatesGo rest proj failsOn
    else if failsOn n then
      let r := syncTemplatesGo rest proj failsOn
      ⟨r.project, r.synced, ("  Warning: Could not sync " ++ n) :: r.warnings⟩
    else
      let proj2 :=
        match node with
        | .dir cs =>
          match syncDirectory cs (lookupEntry proj n) n with
          | some v => setEntry proj n v
          | none => proj
        | .file c => setEntry proj n (.file c)
      let r := syncTemplatesGo rest proj2 failsOn
      ⟨r.project, n :: r.synced, r.warnings⟩

/-- Function `syncTemplates(projectRoot, logger)` from the source: iterate over the
top-level template entries and return the synced names.  The bundled
template tree, the project tree, and the error oracle (which entries raise
during their sync) are explicit parameters. -/
def syncTemplates (templates project : List (String × FsNode))
    (failsOn : String → Bool) : SyncOutcome :=
  syncTemplatesGo templates project failsOn

/-! ## Helper lemmas -/

lemma runRequestPhase_append (xs ys : List ApiPlugin) (ctx : ApiRequestContext) :
    runRequestPhase (xs ++ ys) ctx =
      match runRequestPhase xs ctx with
      | (tr, .proceed c) => (tr ++ (runRequestPhase ys c).1, (runRequestPhase ys c).2)
      | (tr, .shortCircuited r) => (tr, .shortCircuited r) := by
  induction xs generalizing ctx with
  | nil => simp [runRequestPhase]
  | cons p rest ih =>
    cases hp : p.onRequest with
    | none =>
      simpa [runRequestPhase, hp] using ih ctx
    | some f =>
      cases hf : f ctx with
      | sc s => simp [runRequestPhase, hp, hf]
      | ctx c2 =>
        rcases hrec : runRequestPhase rest c2 with ⟨tr2, out2⟩
        have h2 := ih c2
        rw [hrec] at h2
        cases out2 with
        | proceed c3 =>
          simp [runRequestPhase, hp, hf, hrec, h2]
        | shortCircuited r =>
          simp [runRequestPhase, hp, hf, hrec, h2]

/-! ## Concrete fixtures used by the witnesses -/

def ctx0 : ApiRequestContext := ⟨"GET", "/u", [], none⟩

def ctxA : ApiRequestContext := ⟨"GET", "/uA", [], none⟩

def pluginA : ApiPlugin :=
  ⟨[1], some (fun c => .ctx { c with url := c.url ++ "A" }), none, none⟩

def pluginB : ApiPlugin :=
  ⟨[2], some (fun c => .ctx { c with url := c.url ++ "B" }), none, none⟩

def pluginSC : ApiPlugin :=
  ⟨[3], some (fun _ => .sc ⟨⟨200, [("x-hai3-short-circuit", "true")], "mock"⟩⟩),
    none, none⟩

def pluginR : ApiPlugin :=
  ⟨[4], none, some (fun r _ => { r with data := r.data ++ "R" }), none⟩

def pluginErrPass : ApiPlugin :=
  ⟨[5], none, none, some (fun e _ => .inl ⟨e.message ++ "!"⟩)⟩

def pluginErrRecover : ApiPlugin :=
  ⟨[6], none, none, some (fun _ _ => .inr ⟨201, [], "recovered"⟩)⟩

def svc0 : ServiceState := ⟨[pluginSC], [2]⟩

def reg0 : RegistryState := ⟨[pluginA, pluginB], [("svc", svc0)]⟩

/-! ## Claim theorems -/

/-- C10: `isShortCircuit(result)` returns true iff the value is not
`undefined` and has a `shortCircuit` property; it is false on `undefined`
and on a plain `ApiRequestContext`. -/
theorem is_short_circuit_guard :
    (∀ v : OnRequestValue,
      isShortCircuit v = true ↔ (v ≠ .undef ∧ hasShortCircuitProp v = true))
    ∧ isShortCircuit .undef = false
    ∧ (∀ c : ApiRequestContext, isShortCircuit (.ctx c) = false)
    ∧ (∀ s : ShortCircuitResponse, isShortCircuit (.sc s) = true) := by
  refine ⟨fun v => ?_, rfl, fun c => rfl, fun s => rfl⟩
  cases v <;> simp [isShortCircuit, hasShortCircuitProp]

/-- C1: the merged chain used by `BaseApiService` is the non-excluded
global plugins in registration order followed by the service plugins in
registration order, and the request phase invokes `onRequest` hooks
sequentially over that chain: the filtered globals run first, the service
plugins then run on the context the globals produced, a plugin whose hook
returns a context hands exactly that context to the rest of the chain, and
a plugin without an `onRequest` hook is skipped. -/
theorem plugin_chain_fifo_order (reg : RegistryState) (svc : ServiceState)
    (ctx : ApiRequestContext) :
    getPluginsInOrder reg svc =
      reg.globalPlugins.filter
          (fun p => !(svc.excluded.any (fun c => isInstanceOf p c)))
        ++ svc.servicePlugins
    ∧ (∀ (tr : List (Nat × ApiRequestContext)) (c : ApiRequestContext),
        runRequestPhase
            (reg.globalPlugins.filter
              (fun p => !(svc.excluded.any (fun c => isInstanceOf p c)))) ctx
          = (tr, .proceed c) →
        runRequestPhase (getPluginsInOrder reg svc) ctx
          = (tr ++ (runRequestPhase svc.servicePlugins c).1,
              (runRequestPhase svc.servicePlugins c).2))
    ∧ (∀ (p : ApiPlugin) (ps : List ApiPlugin) (c c2 : ApiRequestContext)
        (f : ApiRequestContext → OnRequestResult),
        p.onRequest = some f → f c = .ctx c2 →
        runRequestPhase (p :: ps) c
          = ((pluginClass p, c) :: (runRequestPhase ps c2).1,
              (runRequestPhase ps c2).2))
    ∧ (∀ (p : ApiPlugin) (ps : List ApiPlugin) (c : ApiRequestContext),
        p.onRequest = none → runRequestPhase (p :: ps) c = runRequestPhase ps c) := by
  refine ⟨rfl, fun tr c h => ?_, fun p ps c c2 f hp hf => ?_, fun p ps c hp => ?_⟩
  · have := runRequestPhase_append
      (reg.globalPlugins.filter
        (fun p => !(svc.excluded.any (fun c => isInstanceOf p c))))
      svc.servicePlugins ctx
    rw [h] at this
    exact this
  · simp [runRequestPhase, hp, hf]
  · simp [runRequestPhase, hp]

/-- Witness for C1: with one non-excluded global plugin and one service
plugin, the chain runs the global first and hands its output to the
service plugins. -/
theorem plugin_chain_fifo_order_witness :
    runRequestPhase (getPluginsInOrder reg0 svc0) ctx0
      = ([(1, ctx0)] ++ (runRequestPhase svc0.servicePlugins ctxA).1,
          (runRequestPhase svc0.servicePlugins ctxA).2) :=
  (plugin_chain_fifo_order reg0 svc0 ctx0).2.1 [(1, ctx0)] ctxA (by decide)

def httpOk : ApiRequestContext → Except ApiError ApiResponseContext :=
  fun _ => .ok ⟨500, [], "real"⟩

def httpFail : ApiRequestContext → Except ApiError ApiResponseContext :=
  fun _ => .error ⟨"network"⟩

lemma runResponseHooks_trace_ctx (l : List ApiPlugin) (ctx : ApiRequestContext)
    (r : ApiResponseContext) :
    ∀ t ∈ (runResponseHooks l ctx r).1, t.2.2 = ctx := by
  induction l generalizing r with
  | nil => simp [runResponseHooks]
  | cons p rest ih =>
    intro t ht
    cases hp : p.onResponse with
    | none =>
      rw [runResponseHooks, hp] at ht
      exact ih r t ht
    | some f =>
      rw [runResponseHooks, hp] at ht
      rcases List.mem_cons.mp ht with h1 | h2
      · rw [h1]
      · exact ih (f r ctx) t h2

lemma runErrorPhase_trace_ctx (ps : List ApiPlugin) (e : ApiError)
    (ctx : ApiRequestContext) :
    ∀ t ∈ (runErrorPhase ps e ctx).1, t.2.2 = ctx := by
  induction ps generalizing e with
  | nil => simp [runErrorPhase]
  | cons p rest ih =>
    intro t ht
    cases hp : p.onError with
    | none =>
      rw [runErrorPhase, hp] at ht
      exact ih e t ht
    | some f =>
      rw [runErrorPhase, hp] at ht
      cases hfe : f e ctx with
      | inl e2 =>
        simp only [hfe] at ht
        rcases List.mem_cons.mp ht with h1 | h2
        · rw [h1]
        · exact ih e2 t h2
      | inr r =>
        simp only [hfe] at ht
        rcases List.mem_cons.mp ht with h1 | h2
        · rw [h1]
        · simp at h2

lemma runErrorPhase_no_recovery (ps : List ApiPlugin) (ctx : ApiRequestContext) :
    (∀ q ∈ ps, ∀ f, q.onError = some f → ∀ e2, (f e2 ctx).isLeft = true) →
    ∀ e, ∃ e3, (runErrorPhase ps e ctx).2 = .error e3 := by
  induction ps with
  | nil => intro _ e; exact ⟨e, rfl⟩
  | cons q rest ih =>
    intro h e
    cases hq : q.onError with
    | none =>
      simpa [runErrorPhase, hq] using
        ih (fun x hx => h x (List.mem_cons_of_mem _ hx)) e
    | some f =>
      have hleft := h q (List.mem_cons_self _ _) f hq e
      cases hfe : f e ctx with
      | inl e2 =>
        obtain ⟨e3, h3⟩ := ih (fun x hx => h x (List.mem_cons_of_mem _ hx)) e2
        exact ⟨e3, by simp [runErrorPhase, hq, hfe, h3]⟩
      | inr r =>
        rw [hfe] at hleft
        simp at hleft

/-- C2: when a plugin's `onRequest` returns a short-circuit response and no
earlier plugin short-circuited, the request phase stops at that plugin (no
later plugin hook appears in the trace, whatever the rest of the chain is),
the HTTP transport is not invoked, and the short-circuited response enters
the response phase exactly as a received response would. -/
theorem short_circuit_skips_http (xs ys : List ApiPlugin) (p : ApiPlugin)
    (f : ApiRequestContext → OnRequestResult) (s : ShortCircuitResponse)
    (http : ApiRequestContext → Except ApiError ApiResponseContext)
    (ctx c : ApiRequestContext) (tr : List (Nat × ApiRequestContext)) :
    runRequestPhase xs ctx = (tr, .proceed c) →
    p.onRequest = some f → f c = .sc s →
    runRequestPhase (xs ++ p :: ys) ctx
      = (tr ++ [(pluginClass p, c)], .shortCircuited s.shortCircuit)
    ∧ executeRequest (xs ++ p :: ys) http ctx
      = ⟨false, .ok (runResponsePhase (xs ++ p :: ys) ctx s.shortCircuit).2⟩ := by
  intro h hp hf
  have h1 : runRequestPhase (xs ++ p :: ys) ctx
      = (tr ++ [(pluginClass p, c)], .shortCircuited s.shortCircuit) := by
    have := runRequestPhase_append xs (p :: ys) ctx
    rw [h] at this
    simpa [runRequestPhase, hp, hf] using this
  refine ⟨h1, ?_⟩
  simp [executeRequest, h1]

/-- Witness for C2: with the short-circuiting plugin second in the chain,
the transport is skipped even though a further plugin follows. -/
theorem short_circuit_skips_http_witness :
    runRequestPhase [pluginA, pluginSC, pluginB] ctx0
      = ([(1, ctx0)] ++ [(3, ctxA)],
          .shortCircuited ⟨200, [("x-hai3-short-circuit", "true")], "mock"⟩)
    ∧ executeRequest [pluginA, pluginSC, pluginB] httpOk ctx0
      = ⟨false, .ok (runResponsePhase [pluginA, pluginSC, pluginB] ctx0
          ⟨200, [("x-hai3-short-circuit", "true")], "mock"⟩).2⟩ :=
  short_circuit_skips_http [pluginA] [pluginB] pluginSC
    (fun _ => .sc ⟨⟨200, [("x-hai3-short-circuit", "true")], "mock"⟩⟩)
    ⟨⟨200, [("x-hai3-short-circuit", "true")], "mock"⟩⟩
    httpOk ctx0 ctxA [(1, ctx0)] (by decide) rfl rfl

/-- C3: the response phase runs the chain in reverse order: for a chain
ending in `p`, plugin `p` runs first on the obtained response together with
the original request context, the rest of the chain (still reversed) then
processes the response `p` returned; every `onResponse` invocation receives
the original request context; and when the transport returns a response the
caller gets exactly the output of the response phase (whose last processed
hook is the final one). -/
theorem response_phase_reverse_onion (ps : List ApiPlugin) (p : ApiPlugin)
    (ctx : ApiRequestContext) (r : ApiResponseContext) :
    (runResponsePhase (ps ++ [p]) ctx r =
      match p.onResponse with
      | none => runResponsePhase ps ctx r
      | some f =>
        ((pluginClass p, r, ctx) :: (runResponsePhase ps ctx (f r ctx)).1,
          (runResponsePhase ps ctx (f r ctx)).2))
    ∧ (∀ t ∈ (runResponsePhase ps ctx r).1, t.2.2 = ctx)
    ∧ (∀ (chain : List ApiPlugin)
        (http : ApiRequestContext → Except ApiError ApiResponseContext)
        (c : ApiRequestContext) (tr : List (Nat × ApiRequestContext))
        (resp : ApiResponseContext),
        runRequestPhase chain ctx = (tr, .proceed c) → http c = .ok resp →
        executeRequest chain http ctx
          = ⟨true, .ok (runResponsePhase chain ctx resp).2⟩) := by
  refine ⟨?_, ?_, fun chain http c tr resp h hh => ?_⟩
  · cases hp : p.onResponse <;>
      simp [runResponsePhase, runResponseHooks, hp, List.reverse_append]
  · exact runResponseHooks_trace_ctx ps.reverse ctx r
  · simp [executeRequest, h, hh]

/-- Witness for C3: a two-plugin chain whose transport succeeds hands the
caller the output of the response phase. -/
theorem response_phase_reverse_onion_witness :
    executeRequest [pluginA, pluginR] httpOk ctx0
      = ⟨true, .ok (runResponsePhase [pluginA, pluginR] ctx0 ⟨500, [], "real"⟩).2⟩ :=
  (response_phase_reverse_onion [pluginA] pluginR ctx0 ⟨500, [], "real"⟩).2.2
    [pluginA, pluginR] httpOk ctxA [(1, ctx0)] ⟨500, [], "real"⟩ (by decide) rfl

/-- C4: on an error, `onError` hooks are invoked one after another, each
receiving the current error and the original request context (every trace
entry carries that context); a hook without `onError` is skipped; a hook
returning an error passes that error to the next handler; a hook returning
a response recovers and stops the error chain; if no hook recovers the
final result is an error, and a transport error makes the caller receive
exactly the outcome of the error phase. -/
theorem on_error_chain_contract (ps : List ApiPlugin) (p : ApiPlugin)
    (e : ApiError) (ctx : ApiRequestContext) :
    runErrorPhase [] e ctx = ([], .error e)
    ∧ (p.onError = none → runErrorPhase (p :: ps) e ctx = runErrorPhase ps e ctx)
    ∧ (∀ (f : ApiError → ApiRequestContext → Sum ApiError ApiResponseContext)
        (e2 : ApiError),
        p.onError = some f → f e ctx = .inl e2 →
        runErrorPhase (p :: ps) e ctx
          = ((pluginClass p, e, ctx) :: (runErrorPhase ps e2 ctx).1,
              (runErrorPhase ps e2 ctx).2))
    ∧ (∀ (f : ApiError → ApiRequestContext → Sum ApiError ApiResponseContext)
        (r : ApiResponseContext),
        p.onError = some f → f e ctx = .inr r →
        runErrorPhase (p :: ps) e ctx = ([(pluginClass p, e, ctx)], .ok r))
    ∧ (∀ t ∈ (runErrorPhase ps e ctx).1, t.2.2 = ctx)
    ∧ ((∀ q ∈ ps, ∀ f, q.onError = some f → ∀ e2, (f e2 ctx).isLeft = true) →
        ∃ e3, (runErrorPhase ps e ctx).2 = .error e3)
    ∧ (∀ (chain : List ApiPlugin)
        (http : ApiRequestContext → Except ApiError ApiResponseContext)
        (c : ApiRequestContext) (tr : List (Nat × ApiRequestContext))
        (e4 : ApiError),
        runRequestPhase chain ctx = (tr, .proceed c) → http c = .error e4 →
        executeRequest chain http ctx
          = ⟨true, (runErrorPhase chain.reverse e4 ctx).2⟩) := by
  refine ⟨rfl, fun hp => ?_, fun f e2 hp hf => ?_, fun f r hp hf => ?_,
    runErrorPhase_trace_ctx ps e ctx,
    fun h => runErrorPhase_no_recovery ps ctx h e,
    fun chain http c tr e4 h hh => ?_⟩
  · simp [runErrorPhase, hp]
  · simp [runErrorPhase, hp, hf]
  · simp [runErrorPhase, hp, hf]
  · simp [executeRequest, h, hh]

/-- Witness for C4: a chain whose only `onError` hook keeps returning
errors ends the error phase with an error, and a recovering hook ends it
with a response. -/
theorem on_error_chain_contract_witness :
    (∃ e3, (runErrorPhase [pluginErrPass] ⟨"boom"⟩ ctx0).2 = .error e3)
    ∧ runErrorPhase [pluginErrRecover] ⟨"boom"⟩ ctx0
        = ([(6, ⟨"boom"⟩, ctx0)], .ok ⟨201, [], "recovered"⟩) :=
  ⟨(on_error_chain_contract [pluginErrPass] pluginErrPass ⟨"boom"⟩ ctx0).2.2.2.2.2.1
    (by
      intro q hq f hf e2
      have hq2 : q = pluginErrPass := by simpa using hq
      subst hq2
      have hf2 : f = fun e _ => Sum.inl ⟨e.message ++ "!"⟩ := by
        have h3 := hf
        rw [pluginErrPass] at h3
        exact (Option.some.inj h3).symm
      rw [hf2]
      rfl),
    (on_error_chain_contract [] pluginErrRecover ⟨"boom"⟩ ctx0).2.2.2.1
      (fun _ _ => Sum.inr ⟨201, [], "recovered"⟩) ⟨201, [], "recovered"⟩ rfl rfl⟩

lemma svcLookup_exclude_map (l : List (String × ServiceState)) (name : String)
    (cs : List Nat) :
    (l.map (fun e =>
        if e.1 == name then (e.1, { e.2 with excluded := e.2.excluded ++ cs })
        else e)).find? (fun x => x.1 == name)
      = (l.find? (fun x => x.1 == name)).map
          (fun e => (e.1, { e.2 with excluded := e.2.excluded ++ cs })) := by
  rw [List.find?_map]
  have hpred : ((fun x : String × ServiceState => x.1 == name) ∘ fun e =>
      if e.1 == name then (e.1, { e.2 with excluded := e.2.excluded ++ cs })
      else e) = fun x => x.1 == name := by
    funext x
    by_cases hx : x.1 = name <;> simp [Function.comp, hx]
  rw [hpred]
  rcases hf : l.find? (fun x => x.1 == name) with _ | a
  · rw [hf]; rfl
  · have ha := List.find?_some hf
    simp only [] at ha
    have han : a.1 = name := by simpa using ha
    rw [hf]
    simp [han]

lemma svcLookup_exclude_other_map (l : List (String × ServiceState)) (name m : String)
    (cs : List Nat) (hm : m ≠ name) :
    (l.map (fun e =>
        if e.1 == name then (e.1, { e.2 with excluded := e.2.excluded ++ cs })
        else e)).find? (fun x => x.1 == m)
      = l.find? (fun x => x.1 == m) := by
  rw [List.find?_map]
  have hpred : ((fun x : String × ServiceState => x.1 == m) ∘ fun e =>
      if e.1 == name then (e.1, { e.2 with excluded := e.2.excluded ++ cs })
      else e) = fun x => x.1 == m := by
    funext x
    by_cases hx : x.1 = name <;> simp [Function.comp, hx]
  rw [hpred]
  rcases hf : l.find? (fun x => x.1 == m) with _ | a
  · rw [hf]; rfl
  · have ha := List.find?_some hf
    simp only [] at ha
    have ha2 : ¬ a.1 = name := by
      have h3 : a.1 = m := by simpa using ha
      rw [h3]
      exact fun hc => hm hc
    rw [hf]
    simp [ha2]

/-- C5: excluding plugin classes on a service extends only that service's
exclusion list; the global registry is unchanged, every other service's
state and execution chain are unchanged, and every global plugin that is an
instance of a listed class is omitted from the global part of that
service's merged chain. -/
theorem exclude_global_frame (reg : RegistryState) (name : String)
    (classes : List Nat) (svc : ServiceState) :
    svcLookup reg name = some svc →
    (excludeOnService reg name classes).globalPlugins = reg.globalPlugins
    ∧ svcLookup (excludeOnService reg name classes) name
        = some { svc with excluded := svc.excluded ++ classes }
    ∧ (∀ m, m ≠ name →
        svcLookup (excludeOnService reg name classes) m = svcLookup reg m)
    ∧ (∀ svc2 : ServiceState,
        getPluginsInOrder (excludeOnService reg name classes) svc2
          = getPluginsInOrder reg svc2)
    ∧ getPluginsInOrder (excludeOnService reg name classes)
          { svc with excluded := svc.excluded ++ classes }
        = reg.globalPlugins.filter
            (fun q => !((svc.excluded ++ classes).any (fun c => isInstanceOf q c)))
          ++ svc.servicePlugins
    ∧ (∀ p ∈ reg.globalPlugins, classes.any (fun c => isInstanceOf p c) = true →
        ¬ p ∈ reg.globalPlugins.filter
            (fun q => !((svc.excluded ++ classes).any (fun c => isInstanceOf q c)))) := by
  intro h
  refine ⟨rfl, ?_, ?_, fun svc2 => rfl, rfl, fun p _ hany hmem => ?_⟩
  · show ((reg.services.map _).find? _).map _ = _
    rw [svcLookup_exclude_map]
    unfold svcLookup at h
    rcases hf : reg.services.find? (fun x => x.1 == name) with _ | e
    · rw [hf] at h; simp at h
    · rw [hf] at h
      simp at h
      simp [hf, h]
  · intro m hm
    show ((reg.services.map _).find? _).map _ = _
    rw [svcLookup_exclude_other_map reg.services name m classes hm]
    rfl
  · have hcond := (List.mem_filter.mp hmem).2
    rw [List.any_append] at hcond
    rw [hany] at hcond
    simp at hcond

/-- Witness for C5: excluding class 1 on the registered service leaves the
global plugin list unchanged and drops `pluginA` (an instance of class 1)
from the global part of that service's chain. -/
theorem exclude_global_frame_witness :
    (excludeOnService reg0 "svc" [1]).globalPlugins = reg0.globalPlugins
    ∧ ¬ pluginA ∈ reg0.globalPlugins.filter
        (fun q => !((svc0.excluded ++ [1]).any (fun c => isInstanceOf q c))) :=
  ⟨(exclude_global_frame reg0 "svc" [1] svc0 rfl).1,
    (exclude_global_frame reg0 "svc" [1] svc0 rfl).2.2.2.2.2 pluginA
      (List.mem_cons_self _ _) (by decide)⟩

lemma insertBefore_at_target (l1 l2 : List ApiPlugin) (t p : ApiPlugin)
    (target : Nat) :
    (∀ q ∈ l1, isInstanceOf q target = false) → isInstanceOf t target = true →
    insertBefore (l1 ++ t :: l2) p target = l1 ++ p :: t :: l2 := by
  induction l1 with
  | nil => intro _ ht; simp [insertBefore, ht]
  | cons q rest ih =>
    intro h ht
    have hq : isInstanceOf q target = false := h q (List.mem_cons_self _ _)
    simp [insertBefore, hq,
      ih (fun x hx => h x (List.mem_cons_of_mem _ hx)) ht]

lemma insertAfter_at_target (l1 l2 : List ApiPlugin) (t p : ApiPlugin)
    (target : Nat) :
    (∀ q ∈ l1, isInstanceOf q target = false) → isInstanceOf t target = true →
    insertAfter (l1 ++ t :: l2) p target = l1 ++ t :: p :: l2 := by
  induction l1 with
  | nil => intro _ ht; simp [insertAfter, ht]
  | cons q rest ih =>
    intro h ht
    have hq : isInstanceOf q target = false := h q (List.mem_cons_self _ _)
    simp [insertAfter, hq,
      ih (fun x hx => h x (List.mem_cons_of_mem _ hx)) ht]

/-- C6: `addBefore` inserts the plugin immediately before the first
registered plugin that is an instance of the target class, `addAfter`
immediately after it, and both throw when no plugin of the target class is
registered.  The registration order is a flat list resolved at insertion
time, so no positioning can create a circular dependency (the circularity
error of the spec is vacuous in this model). -/
theorem add_before_after_positioning (reg : RegistryState) (p : ApiPlugin)
    (target : Nat) :
    (hasPluginClass reg.globalPlugins target = false →
      addBefore reg p target = .error "Plugin class not registered"
      ∧ addAfter reg p target = .error "Plugin class not registered")
    ∧ (∀ (l1 l2 : List ApiPlugin) (t : ApiPlugin),
        reg.globalPlugins = l1 ++ t :: l2 →
        (∀ q ∈ l1, isInstanceOf q target = false) →
        isInstanceOf t target = true →
        hasPluginClass reg.globalPlugins (pluginClass p) = false →
        addBefore reg p target
          = .ok { reg with globalPlugins := l1 ++ p :: t :: l2 }
        ∧ addAfter reg p target
          = .ok { reg with globalPlugins := l1 ++ t :: p :: l2 }) := by
  refine ⟨fun h => ?_, fun l1 l2 t hl h1 ht hdup => ?_⟩
  · constructor <;> simp [addBefore, addAfter, h]
  · have htar : hasPluginClass reg.globalPlugins target = true := by
      rw [hl]
      simp [hasPluginClass, List.any_append, ht]
    have hinsB := insertBefore_at_target l1 l2 t p target h1 ht
    have hinsA := insertAfter_at_target l1 l2 t p target h1 ht
    rw [hl] at htar hdup
    constructor
    · simp [addBefore, htar, hdup, hl, hinsB]
    · simp [addAfter, htar, hdup, hl, hinsA]

/-- Witness for C6: positioning relative to `pluginB` (class 2) inserts
right before and right after it, and a missing target class throws. -/
theorem add_before_after_positioning_witness :
    addBefore reg0 pluginSC 2
      = .ok { reg0 with globalPlugins := [pluginA] ++ pluginSC :: pluginB :: [] }
    ∧ addAfter reg0 pluginSC 2
      = .ok { reg0 with globalPlugins := [pluginA] ++ pluginB :: pluginSC :: [] }
    ∧ addBefore reg0 pluginSC 9 = .error "Plugin class not registered" :=
  ⟨((add_before_after_positioning reg0 pluginSC 2).2 [pluginA] [] pluginB rfl
      (by decide) (by decide) (by decide)).1,
    ((add_before_after_positioning reg0 pluginSC 2).2 [pluginA] [] pluginB rfl
      (by decide) (by decide) (by decide)).2,
    ((add_before_after_positioning reg0 pluginSC 9).1 (by decide)).1⟩

lemma lookupEntry_setEntry_ne (cs : List (String × FsNode)) (n m : String)
    (v : FsNode) (h : n ≠ m) :
    lookupEntry (setEntry cs m v) n = lookupEntry cs n := by
  have hmn : ¬ m = n := fun hc => h hc.symm
  simp only [lookupEntry, setEntry]
  induction cs with
  | nil =>
    rw [List.filter_nil, List.nil_append,
      List.find?_cons_of_neg _ (by simpa using hmn), List.find?_nil]
  | cons e rest ih =>
    by_cases he : e.1 = m
    · rw [List.filter_cons_of_neg, List.find?_cons_of_neg]
      · exact ih
      · simp [he, hmn]
      · simp [he]
    · rw [List.filter_cons_of_pos, List.cons_append]
      · by_cases hn : e.1 = n
        · rw [List.find?_cons_of_pos _ (by simpa using hn),
            List.find?_cons_of_pos _ (by simpa using hn)]
        · rw [List.find?_cons_of_neg _ (by simpa using hn),
            List.find?_cons_of_neg _ (by simpa using hn)]
          exact ih
      · simp [he]

lemma lookupEntry_setEntry_self (cs : List (String × FsNode)) (n : String)
    (v : FsNode) :
    lookupEntry (setEntry cs n v) n = some v := by
  simp only [lookupEntry, setEntry]
  induction cs with
  | nil =>
    rw [List.filter_nil, List.nil_append,
      List.find?_cons_of_pos _ (by simp)]
    rfl
  | cons e rest ih =>
    by_cases he : e.1 = n
    · rw [List.filter_cons_of_neg]
      · exact ih
      · simp [he]
    · rw [List.filter_cons_of_pos, List.cons_append,
        List.find?_cons_of_neg _ (by simpa using he)]
      · exact ih
      · simp [he]

lemma replaceTemplateEntries_preserve (srcCs : List (String × FsNode)) :
    ∀ (destCs : List (String × FsNode)) (n : String),
    (∀ e ∈ srcCs, e.1 ≠ n) →
    lookupEntry (replaceTemplateEntries srcCs destCs) n = lookupEntry destCs n := by
  induction srcCs with
  | nil => intro destCs n _; rfl
  | cons e rest ih =>
    intro destCs n h
    have hne : n ≠ e.1 := fun hc => h e (List.mem_cons_self _ _) hc.symm
    calc lookupEntry (replaceTemplateEntries (e :: rest) destCs) n
        = lookupEntry (replaceTemplateEntries rest (setEntry destCs e.1 e.2)) n := rfl
      _ = lookupEntry (setEntry destCs e.1 e.2) n :=
          ih _ n (fun x hx => h x (List.mem_cons_of_mem _ hx))
      _ = lookupEntry destCs n := lookupEntry_setEntry_ne destCs n e.1 e.2 hne

lemma replaceTemplateEntries_updates (srcCs : List (String × FsNode)) :
    ∀ (destCs : List (String × FsNode)),
    (srcCs.map Prod.fst).Nodup →
    ∀ e ∈ srcCs, lookupEntry (replaceTemplateEntries srcCs destCs) e.1 = some e.2 := by
  induction srcCs with
  | nil => intro destCs _ e he; simp at he
  | cons a rest ih =>
    intro destCs hnd e he
    rw [List.map_cons, List.nodup_cons] at hnd
    rcases List.mem_cons.mp he with h1 | h2
    · subst h1
      have hrest : ∀ x ∈ rest, x.1 ≠ e.1 := by
        intro x hx hc
        exact hnd.1 (hc ▸ List.mem_map_of_mem Prod.fst hx)
      calc lookupEntry (replaceTemplateEntries (e :: rest) destCs) e.1
          = lookupEntry (replaceTemplateEntries rest (setEntry destCs e.1 e.2)) e.1 := rfl
        _ = lookupEntry (setEntry destCs e.1 e.2) e.1 :=
            replaceTemplateEntries_preserve rest _ e.1 hrest
        _ = some e.2 := lookupEntry_setEntry_self destCs e.1 e.2
    · exact ih (setEntry destCs a.1 a.2) hnd.2 e h2

/-- C8: the `src/screensets` branch of `syncDirectory` replaces exactly the
destination entries whose names occur among the template screensets; every
destination entry with a name not among the template entries is unchanged,
and (for distinct template names) each template entry is copied over. -/
theorem sync_screensets_preserves_user (srcCs destCs : List (String × FsNode)) :
    syncDirectory srcCs (some (.dir destCs)) "src/screensets"
      = some (.dir (replaceTemplateEntries srcCs destCs))
    ∧ (∀ n : String, (∀ e ∈ srcCs, e.1 ≠ n) →
        lookupEntry (replaceTemplateEntries srcCs destCs) n = lookupEntry destCs n)
    ∧ ((srcCs.map Prod.fst).Nodup → ∀ e ∈ srcCs,
        lookupEntry (replaceTemplateEntries srcCs destCs) e.1 = some e.2) := by
  refine ⟨?_, fun n h => replaceTemplateEntries_preserve srcCs destCs n h,
    fun hnd e he => replaceTemplateEntries_updates srcCs destCs hnd e he⟩
  rw [syncDirectory]
  rfl

def tmplScreensets : List (String × FsNode) := [("demo", .file "new")]

def projScreensets : List (String × FsNode) :=
  [("demo", .file "old"), ("mine", .file "user")]

/-- Witness for C8: the user screenset `mine` is untouched while the
template screenset `demo` is replaced. -/
theorem sync_screensets_preserves_user_witness :
    lookupEntry (replaceTemplateEntries tmplScreensets projScreensets) "mine"
      = lookupEntry projScreensets "mine"
    ∧ lookupEntry (replaceTemplateEntries tmplScreensets projScreensets) "demo"
      = some (.file "new") :=
  ⟨(sync_screensets_preserves_user tmplScreensets projScreensets).2.1 "mine"
      (by intro e he; simp [tmplScreensets] at he; simp [he]),
    (sync_screensets_preserves_user tmplScreensets projScreensets).2.2
      (by simp [tmplScreensets]) ("demo", .file "new")
      (List.mem_cons_self _ _)⟩

lemma syncTemplatesGo_synced_eq (templates : List (String × FsNode))
    (failsOn : String → Bool) :
    ∀ proj, (syncTemplatesGo templates proj failsOn).synced
      = (templates.filter
          (fun e => !(SYNC_EXCLUDE.contains e.1) && !(failsOn e.1))).map Prod.fst := by
  induction templates with
  | nil => intro proj; rfl
  | cons e rest ih =>
    intro proj
    rcases e with ⟨n, node⟩
    by_cases hex : n ∈ SYNC_EXCLUDE
    · simp [syncTemplatesGo, hex, List.filter_cons, ih]
    · cases hfail : failsOn n
      · simp [syncTemplatesGo, hex, hfail, List.filter_cons, ih]
      · simp [syncTemplatesGo, hex, hfail, List.filter_cons, ih]

lemma syncTemplatesGo_warnings_eq (templates : List (String × FsNode))
    (failsOn : String → Bool) :
    ∀ proj, (syncTemplatesGo templates proj failsOn).warnings
      = (templates.filter
          (fun e => !(SYNC_EXCLUDE.contains e.1) && failsOn e.1)).map
            (fun e => "  Warning: Could not sync " ++ e.1) := by
  induction templates with
  | nil => intro proj; rfl
  | cons e rest ih =>
    intro proj
    rcases e with ⟨n, node⟩
    by_cases hex : n ∈ SYNC_EXCLUDE
    · simp [syncTemplatesGo, hex, List.filter_cons, ih]
    · cases hfail : failsOn n
      · simp [syncTemplatesGo, hex, hfail, List.filter_cons, ih]
      · simp [syncTemplatesGo, hex, hfail, List.filter_cons, ih]

lemma syncTemplatesGo_untouched (templates : List (String × FsNode))
    (failsOn : String → Bool) (n : String) :
    ∀ proj, (∀ e ∈ templates, SYNC_EXCLUDE.contains e.1 = true ∨ e.1 ≠ n) →
    lookupEntry (syncTemplatesGo templates proj failsOn).project n
      = lookupEntry proj n := by
  induction templates with
  | nil => intro proj _; rfl
  | cons e rest ih =>
    intro proj h
    rcases e with ⟨m, node⟩
    have hrest := fun x hx => h x (List.mem_cons_of_mem _ hx)
    have ih2 := fun proj => ih proj hrest
    by_cases hex : m ∈ SYNC_EXCLUDE
    · simp [syncTemplatesGo, hex, ih2]
    · have hmn : m ≠ n := by
        rcases h (m, node) (List.mem_cons_self _ _) with h1 | h2
        · exact absurd (by simpa using h1) hex
        · exact h2
      have hnm : n ≠ m := fun hc => hmn hc.symm
      cases hfail : failsOn m
      · cases node with
        | file c =>
          simp [syncTemplatesGo, hex, hfail, ih2,
            lookupEntry_setEntry_ne proj n m (.file c) hnm]
        | dir cs =>
          cases hsd : syncDirectory cs (lookupEntry proj m) m with
          | none =>
            simp [syncTemplatesGo, hex, hfail, hsd, ih2]
          | some v =>
            simp [syncTemplatesGo, hex, hfail, hsd, ih2,
              lookupEntry_setEntry_ne proj n m v hnm]
      · simp [syncTemplatesGo, hex, hfail, ih2]

/-- C7: `syncTemplates` iterates over the top-level template entries, the
returned names are exactly the non-excluded entries whose sync raised no
error (in iteration order), no returned name is in `SYNC_EXCLUDE`, and the
project is untouched at the excluded names `manifest.json`,
`screenset-template` and `layout`. -/
theorem sync_templates_exclusion_return (templates project : List (String × FsNode))
    (failsOn : String → Bool) :
    (syncTemplates templates project failsOn).synced
      = (templates.filter
          (fun e => !(SYNC_EXCLUDE.contains e.1) && !(failsOn e.1))).map Prod.fst
    ∧ (∀ n ∈ (syncTemplates templates project failsOn).synced, ¬ n ∈ SYNC_EXCLUDE)
    ∧ (∀ n ∈ SYNC_EXCLUDE,
        lookupEntry (syncTemplates templates project failsOn).project n
          = lookupEntry project n) := by
  refine ⟨syncTemplatesGo_synced_eq templates failsOn project,
    fun n hn hmem => ?_, fun n hn => ?_⟩
  · rw [syncTemplates, syncTemplatesGo_synced_eq] at hn
    obtain ⟨e, he, hfe⟩ := List.mem_map.mp hn
    have hcond := (List.mem_filter.mp he).2
    rw [hfe] at hcond
    simp at hcond
    exact hcond.1 hmem
  · apply syncTemplatesGo_untouched
    intro e _
    by_cases hne : e.1 = n
    · left; rw [hne]; simpa using hn
    · right; exact hne

def templates0 : List (String × FsNode) :=
  [("index.html", .file "h"), ("manifest.json", .file "m"),
    ("layout", .dir []), ("vite.config.ts", .file "v")]

def failsOn0 : String → Bool := fun n => n == "vite.config.ts"

/-- Witness for C7: with a failing entry and two excluded entries, only the
cleanly synced entry is returned and `layout` is untouched. -/
theorem sync_templates_exclusion_return_witness :
    ¬ "layout" ∈ (syncTemplates templates0 [] failsOn0).synced
    ∧ lookupEntry (syncTemplates templates0 [] failsOn0).project "layout"
        = lookupEntry [] "layout" :=
  ⟨fun hmem =>
      (sync_templates_exclusion_return templates0 [] failsOn0).2.1 "layout" hmem
        (by decide),
    (sync_templates_exclusion_return templates0 [] failsOn0).2.2 "layout"
      (by decide)⟩

/-- C9: an error while syncing one top-level entry is caught: the function
still returns (no rejection), a warning naming the entry is logged, the
failed entry's name is left out of the returned array, and every other
non-excluded entry that raises no error is still synced and returned. -/
theorem sync_failure_warns_continues (templates project : List (String × FsNode))
    (failsOn : String → Bool) (n : String) :
    n ∈ templates.map Prod.fst → ¬ n ∈ SYNC_EXCLUDE → failsOn n = true →
    ¬ n ∈ (syncTemplates templates project failsOn).synced
    ∧ ("  Warning: Could not sync " ++ n)
        ∈ (syncTemplates templates project failsOn).warnings
    ∧ (∀ m ∈ templates.map Prod.fst, ¬ m ∈ SYNC_EXCLUDE → failsOn m = false →
        m ∈ (syncTemplates templates project failsOn).synced) := by
  intro hmem hexcl hfail
  refine ⟨?_, ?_, fun m hm hmex hmf => ?_⟩
  · rw [syncTemplates, syncTemplatesGo_synced_eq]
    intro hc
    obtain ⟨e, he, hfe⟩ := List.mem_map.mp hc
    have hcond := (List.mem_filter.mp he).2
    rw [hfe] at hcond
    simp [hfail] at hcond
  · rw [syncTemplates, syncTemplatesGo_warnings_eq]
    obtain ⟨e, he, hfe⟩ := List.mem_map.mp hmem
    apply List.mem_map.mpr
    refine ⟨e, List.mem_filter.mpr ⟨he, ?_⟩, by rw [hfe]⟩
    rw [hfe]
    simp [hfail]
    simpa using hexcl
  · rw [syncTemplates, syncTemplatesGo_synced_eq]
    obtain ⟨e, he, hfe⟩ := List.mem_map.mp hm
    apply List.mem_map.mpr
    refine ⟨e, List.mem_filter.mpr ⟨he, ?_⟩, hfe⟩
    rw [hfe]
    simp [hmf]
    simpa using hmex

/-- Witness for C9: the failing entry `vite.config.ts` is omitted and
warned about, while `index.html` is still synced. -/
theorem sync_failure_warns_continues_witness :
    ¬ "vite.config.ts" ∈ (syncTemplates templates0 [] failsOn0).synced
    ∧ ("  Warning: Could not sync " ++ "vite.config.ts")
        ∈ (syncTemplates templates0 [] failsOn0).warnings
    ∧ "index.html" ∈ (syncTemplates templates0 [] failsOn0).synced :=
  ⟨(sync_failure_warns_continues templates0 [] failsOn0 "vite.config.ts"
      (by decide) (by decide) (by decide)).1,
    (sync_failure_warns_continues templates0 [] failsOn0 "vite.config.ts"
      (by decide) (by decide) (by decide)).2.1,
    (sync_failure_warns_continues templates0 [] failsOn0 "vite.config.ts"
      (by decide) (by decide) (by decide)).2.2 "index.html"
      (by decide) (by decide) (by decide)⟩

end HAI3
